import Mathlib

/-!
Verification development for the `delete-organization` tool
(`src/delete-organization/src/main.rs`).

The tool computes, for a seed entity in an RDF triple store, a set of
SPARQL DELETE statements covering the entities reachable from the seed
along a type-indexed configuration of forward/reverse edges.  We embed
the pure core of the program: the JSON value model as used through
`serde_json` (`get`, `Index`, `as_array`, `as_str`, equality with a
string), the result parser `parse_json_uris`, the snippet builder
`build_delete_snippet`, the query builders, the configured traversal
`build_deletion_path`, and the two unconfigured BFS loops
`build_reverse_path` / `build_forward_path`.

The HTTP collaborator is modelled as a function from query strings to an
`HttpResponse`; `fetch_sparql_results` mirrors the Rust function of the
same name on that model.  A Rust panic (an `unwrap` on a non-string
JSON value) is modelled as `Option.none` / `RunError.panicked`; an
error propagated with `?` aborts the run (`RunError.fetchFailed`).
Engine functions additionally record the list of issued query strings,
so that claims about which queries are issued can be stated.
-/

namespace DeleteOrg

/-- JSON values as in `serde_json::Value` (numbers are irrelevant to the
claims; they are carried as integers). Objects are association lists of
distinct keys, in insertion order. -/
inductive Json where
  | null
  | bool (b : Bool)
  | num (n : Int)
  | str (s : String)
  | arr (elems : List Json)
  | obj (fields : List (String × Json))

/-- Lookup of a key in an object's field list (first match). -/
def lookupField : List (String × Json) → String → Option Json
  | [], _ => none
  | (k, v) :: rest, key => if k = key then some v else lookupField rest key

/-- Model of `serde_json::Value::get(&str)`: `Some` only on an object
containing the key. -/
def Json.getKey : Json → String → Option Json
  | .obj fields, key => lookupField fields key
  | _, _ => none

/-- Model of `serde_json`'s `Index<&str>` on `Value` (`value[key]`):
member access that yields `Null` when the key is absent or the value is
not an object. -/
def Json.idx (j : Json) (key : String) : Json :=
  (j.getKey key).getD Json.null

/-- Model of `Value::as_array`. -/
def Json.asArr : Json → Option (List Json)
  | .arr elems => some elems
  | _ => none

/-- Model of `Value::as_str`. -/
def Json.asStr : Json → Option String
  | .str s => some s
  | _ => none

/-- Model of `Value::as_object` (returning the field list). -/
def Json.asObj : Json → Option (List (String × Json))
  | .obj fields => some fields
  | _ => none

/-- Model of `Value == &str` (`PartialEq<str>` for `Value`): true exactly
on the equal string variant. -/
def Json.eqStr : Json → String → Bool
  | .str s, t => s == t
  | _, _ => false

/-- Embedding of `parse_json_uris` (main.rs lines 59-80): descend into
`results.bindings`; when that is an array, keep the bindings whose
`target` member has `"type" == "uri"`, in array order; otherwise return
the empty list. -/
def parse_json_uris (value : Json) (target : String) : List Json :=
  match value.getKey "results" with
  | none => []
  | some value =>
    match value.getKey "bindings" with
    | none => []
    | some bindings =>
      match bindings.asArr with
      | none => []
      | some array =>
        array.filter (fun binding => ((binding.idx target).idx "type").eqStr "uri")

/-- The `VALUES` block of the delete snippet: one line per binding,
`val[target]["value"]` unwrapped as a string (a non-string value makes
the Rust `unwrap` panic, modelled as `none`). -/
def snippetValues : List Json → String → Option String
  | [], _ => some ""
  | val :: rest, target =>
    match ((val.idx target).idx "value").asStr with
    | none => none
    | some v => (snippetValues rest target).map (fun r => "    <" ++ v ++ ">\n" ++ r)

/-- The fixed text pushed before the `VALUES` lines in
`build_delete_snippet`. -/
def deleteHeader : String :=
  "DELETE \x7b\n  GRAPH ?g \x7b\n    ?s ?p ?o .\n  \x7d\n\x7d\nWHERE \x7b\n  VALUES ?s \x7b\n"

/-- The fixed text pushed after the `VALUES` block in
`build_delete_snippet`. -/
def deleteFooter : String :=
  "\n  GRAPH ?g \x7b\n    ?s ?p ?o .\n  \x7d\n\x7d\n"

/-- Embedding of `build_delete_snippet` (main.rs lines 82-118).  `none`
models the panic of `val[target]["value"].as_str().unwrap()` on a
non-string value. -/
def build_delete_snippet (results : List Json) (target : String) : Option String :=
  (snippetValues results target).map
    (fun values => deleteHeader ++ values ++ "  \x7d\n" ++ deleteFooter)

/-- Embedding of `create_simple_forward_parametrized_delete_query`
(main.rs lines 120-138). -/
def create_simple_forward_parametrized_delete_query (uri : String) : String :=
  "DELETE \x7b\n  GRAPH ?g \x7b\n    ?s ?p ?o .\n  \x7d\n\x7d\nWHERE \x7b\n  BIND(" ++ uri ++
    " AS ?s)\n\n  GRAPH ?g \x7b\n    ?s ?p ?o .\n  \x7d\n\x7d"

/-- Embedding of `create_forward_parametrized_select_query_with_type`
(main.rs lines 140-156), reproducing the raw-string template byte for
byte. -/
def create_forward_parametrized_select_query_with_type (uri uriType : String) : String :=
  "\n    SELECT DISTINCT ?o WHERE \x7b\n      VALUES ?values \x7b\n        " ++ uri ++
    "\n      \x7d\n\n      ?values ?p ?o .\n      ?o a " ++ uriType ++ " .\n    \x7d\n  "

/-- Embedding of `create_backward_parametrized_select_query_with_type`
(main.rs lines 158-174). -/
def create_backward_parametrized_select_query_with_type (uri uriType : String) : String :=
  "\n    SELECT DISTINCT ?s WHERE \x7b\n      VALUES ?values \x7b\n        " ++ uri ++
    "\n      \x7d\n\n      ?s a " ++ uriType ++ " ;\n        ?p ?values .\n    \x7d\n  "

/-- Embedding of `create_forward_parametrized_query` (main.rs lines
176-191). -/
def create_forward_parametrized_query (uri : String) : String :=
  "\n      SELECT DISTINCT ?o WHERE \x7b\n        VALUES ?values \x7b\n          " ++ uri ++
    "\n        \x7d\n\n        ?values ?p ?o .\n      \x7d\n    "

/-- Embedding of `create_reverse_parametrized_query` (main.rs lines
193-208). -/
def create_reverse_parametrized_query (uri : String) : String :=
  "\n        SELECT DISTINCT ?s WHERE \x7b\n          VALUES ?values \x7b\n            " ++ uri ++
    "\n          \x7d\n\n          ?s ?p ?values .\n        \x7d\n    "

/-- Outcome of one HTTP round trip to the query endpoint, as observed by
`fetch_sparql_results`: the send can fail (transport error), the body of
a success response can fail to read or to parse as JSON, or the response
arrives with a success (2xx) or non-success status. -/
inductive HttpResponse where
  | transportError
  | badBody
  | success (body : Json)
  | failure

/-- How a run of an engine function ends abnormally: an error propagated
with the Rust `?` operator (a failed fetch), or a panic (an `unwrap` on
an unexpected JSON shape). -/
inductive RunError where
  | fetchFailed
  | panicked
deriving DecidableEq

/-- Embedding of `fetch_sparql_results` (main.rs lines 20-57) over the
modelled endpoint outcome: a transport failure or an unreadable or
unparseable body is an error (propagated by the caller's `?`); a
non-success status is logged and becomes `Ok(Value::Null)`; a success
status yields the parsed body. -/
def fetch_sparql_results : HttpResponse → Except Unit Json
  | .transportError => .error ()
  | .badBody => .error ()
  | .success body => .ok body
  | .failure => .ok Json.null

/-- Lookup in the frontier map (Rust `HashMap<&str, Vec<String>>::get`). -/
def mapLookup : List (String × List String) → String → Option (List String)
  | [], _ => none
  | (k, v) :: rest, key => if k = key then some v else mapLookup rest key

/-- Insert-or-overwrite in the frontier map (Rust `HashMap::insert`). -/
def mapInsert (key : String) (v : List String) :
    List (String × List String) → List (String × List String)
  | [] => [(key, v)]
  | (k, w) :: rest => if k = key then (key, v) :: rest else (k, w) :: mapInsert key v rest

/-- Direction of a configured type-edge: `reverse` edges use the backward
query and result variable `s`, `forward` edges the forward query and
variable `o`. -/
inductive Dir where
  | reverse
  | forward

/-- The result variable extracted for each direction (`"s"` for reverse
edges, `"o"` for forward edges). -/
def dirVar : Dir → String
  | .reverse => "s"
  | .forward => "o"

/-- The SELECT query issued for one type-edge: the frontier IRIs of the
source type joined by newlines, substituted into the backward or forward
type-constrained template together with the target type. -/
def edgeQuery : Dir → List String → String → String
  | .reverse, uris, t =>
    create_backward_parametrized_select_query_with_type (String.intercalate "\n" uris) t
  | .forward, uris, t =>
    create_forward_parametrized_select_query_with_type (String.intercalate "\n" uris) t

/-- The IRI strings extracted from parsed bindings for `var`
(`v[var]["value"].as_str()` filtered and wrapped in angle brackets), as
built by the `filter_map` in `build_deletion_path`. -/
def extractIRIs (results : List Json) (var : String) : List String :=
  results.filterMap (fun v => (((v.idx var).idx "value").asStr).map (fun s => "<" ++ s ++ ">"))

/-- State of the configured traversal engine: the frontier map, the
accumulated plan string `s`, the trace of issued query strings (recorded
so that claims about which queries are issued can be stated), and the
abnormal-termination marker.  Once `err` is set nothing further
executes, modelling abort by `?` or panic. -/
structure EngineState where
  frontier : List (String × List String)
  plan : String
  queries : List String
  err : Option RunError
deriving DecidableEq

/-- Embedding of the body of the per-edge loops of `build_deletion_path`
(main.rs lines 312-351 for reverse edges, 357-397 for forward edges):
skip unless the entry's own type is in the frontier; panic if the edge's
target type in the config is not a JSON string; issue the type-edge
query; a fetch error aborts; otherwise parse bindings on the direction's
variable, extract the string-valued IRIs, and when that list is
non-empty overwrite the frontier entry of the target type and append the
delete snippet to the plan. -/
def process_edge (endpoint : String → HttpResponse) (dir : Dir) (key : String)
    (item : Json) (st : EngineState) : EngineState :=
  match st.err with
  | some _ => st
  | none =>
    match mapLookup st.frontier key with
    | none => st
    | some current_uris =>
      match item.asStr with
      | none => { st with err := some RunError.panicked }
      | some t =>
        let q := edgeQuery dir current_uris t
        let st1 := { st with queries := st.queries ++ [q] }
        match fetch_sparql_results (endpoint q) with
        | .error _ => { st1 with err := some RunError.fetchFailed }
        | .ok r =>
          let results := parse_json_uris r (dirVar dir)
          let rvl := extractIRIs results (dirVar dir)
          if rvl.isEmpty then st1
          else
            match build_delete_snippet results (dirVar dir) with
            | none => { st1 with err := some RunError.panicked }
            | some snip =>
              { st1 with
                  frontier := mapInsert t rvl st1.frontier,
                  plan := st1.plan ++ snip ++ "\n;\n\n" }

/-- One direction's `for item in ...` loop over a config entry's edge
array. -/
def process_edges (endpoint : String → HttpResponse) (dir : Dir) (key : String)
    (items : List Json) (st : EngineState) : EngineState :=
  items.foldl (fun st item => process_edge endpoint dir key item st) st

/-- Embedding of the `if let Some(..) = inner_obj.get(..)`
`if let Some(..) = ..as_array()` nesting around each direction's edge
loop in `build_deletion_path`: run the edge loop when the direction's
member is present and is an array, otherwise leave the state alone. -/
def process_edge_array (endpoint : String → HttpResponse) (dir : Dir) (key : String)
    (edgeField : Option Json) (st : EngineState) : EngineState :=
  match edgeField with
  | some field =>
    match field.asArr with
    | some arr => process_edges endpoint dir key arr st
    | none => st
  | none => st

/-- Embedding of one iteration of the config loop of
`build_deletion_path` (main.rs lines 307-401): if the entry's value is a
JSON object, process its `reverse` array (when present and an array) and
then its `forward` array likewise. -/
def process_entry (endpoint : String → HttpResponse) (key : String) (value : Json)
    (st : EngineState) : EngineState :=
  match value.asObj with
  | none => st
  | some innerObj =>
    process_edge_array endpoint Dir.forward key (lookupField innerObj "forward")
      (process_edge_array endpoint Dir.reverse key (lookupField innerObj "reverse") st)

/-- Embedding of `build_deletion_path` (main.rs lines 288-405) with the
endpoint and the already-parsed ordered config as parameters: seed the
frontier with `{uriType: [uri]}` and fold the entry processor over the
config entries in order.  The returned state carries the plan, the
query trace and the abnormal-termination marker. -/
def build_deletion_path (endpoint : String → HttpResponse)
    (config : List (String × Json)) (uri uriType : String) : EngineState :=
  let st0 : EngineState :=
    { frontier := mapInsert uriType [uri] [], plan := "", queries := [], err := none }
  config.foldl (fun st entry => process_entry endpoint entry.1 entry.2 st) st0

/-- The value `build_deletion_path` returns to its caller: `Ok` with the
accumulated statement string on a normal run, the propagated error
otherwise. -/
def build_deletion_path_result (endpoint : String → HttpResponse)
    (config : List (String × Json)) (uri uriType : String) : Except RunError String :=
  let st := build_deletion_path endpoint config uri uriType
  match st.err with
  | some e => .error e
  | none => .ok st.plan

/-- Embedding of the `while !results.is_empty()` loop of
`build_reverse_path` (main.rs lines 228-244), with fuel bounding the
number of iterations: `none` means the fuel ran out before the loop
exited.  Each round appends a delete snippet, re-queries the reverse
neighbours of the freshly extracted IRIs, and replaces `results` with
the newly parsed bindings. -/
def reverse_loop (endpoint : String → HttpResponse) :
    Nat → String → List Json → Option (Except RunError String)
  | fuel, s, results =>
    if results.isEmpty then some (Except.ok s)
    else
      match fuel with
      | 0 => none
      | fuel' + 1 =>
        match build_delete_snippet results "s" with
        | none => some (Except.error RunError.panicked)
        | some snip =>
          let s' := s ++ snip ++ "\n;\n\n"
          let uri_value_list := String.intercalate "\n" (extractIRIs results "s")
          let q := create_reverse_parametrized_query uri_value_list
          match fetch_sparql_results (endpoint q) with
          | .error _ => some (Except.error RunError.fetchFailed)
          | .ok r => reverse_loop endpoint fuel' s' (parse_json_uris r "s")

/-- Embedding of `build_reverse_path` (main.rs lines 210-247): initial
reverse query on the seed URI, then the replace-and-requery loop. -/
def build_reverse_path (endpoint : String → HttpResponse) (fuel : Nat)
    (uri : String) : Option (Except RunError String) :=
  match fetch_sparql_results (endpoint (create_reverse_parametrized_query uri)) with
  | .error _ => some (Except.error RunError.fetchFailed)
  | .ok r => reverse_loop endpoint fuel "" (parse_json_uris r "s")

/-- Embedding of the loop of `build_forward_path` (main.rs lines
267-283).  Note that, exactly as in the source, the bindings are parsed
and extracted on variable `"s"` even though the forward query selects
only `?o`. -/
def forward_loop (endpoint : String → HttpResponse) :
    Nat → String → List Json → Option (Except RunError String)
  | fuel, s, results =>
    if results.isEmpty then some (Except.ok s)
    else
      match fuel with
      | 0 => none
      | fuel' + 1 =>
        match build_delete_snippet results "s" with
        | none => some (Except.error RunError.panicked)
        | some snip =>
          let s' := s ++ snip ++ "\n;\n\n"
          let uri_value_list := String.intercalate "\n" (extractIRIs results "s")
          let q := create_forward_parametrized_query uri_value_list
          match fetch_sparql_results (endpoint q) with
          | .error _ => some (Except.error RunError.fetchFailed)
          | .ok r => forward_loop endpoint fuel' s' (parse_json_uris r "s")

/-- Embedding of `build_forward_path` (main.rs lines 249-286): initial
forward query on the seed URI, then the loop; the parse of the initial
response is also on variable `"s"` (main.rs line 265). -/
def build_forward_path (endpoint : String → HttpResponse) (fuel : Nat)
    (uri : String) : Option (Except RunError String) :=
  match fetch_sparql_results (endpoint (create_forward_parametrized_query uri)) with
  | .error _ => some (Except.error RunError.fetchFailed)
  | .ok r => forward_loop endpoint fuel "" (parse_json_uris r "s")

/-! Concrete fixtures: small SPARQL-JSON values and endpoints used to
instantiate the theorems below. -/

/-- A well-formed SPARQL-JSON binding row: one variable bound to a
uri-typed value. -/
def mkBinding (varName v : String) : Json :=
  Json.obj [(varName, Json.obj [("type", Json.str "uri"), ("value", Json.str v)])]

/-- A SPARQL-JSON result object with the given binding rows. -/
def mkResults (bindings : List Json) : Json :=
  Json.obj [("results", Json.obj [("bindings", Json.arr bindings)])]

/-- A result object with a single uri binding for a variable. -/
def mkRes (varName v : String) : Json :=
  mkResults [mkBinding varName v]

/-- Endpoint that always answers with a non-success HTTP status. -/
def epFail : String → HttpResponse := fun _ => HttpResponse.failure

/-- Endpoint on which every send fails at the transport layer. -/
def epTransport : String → HttpResponse := fun _ => HttpResponse.transportError

/-- A one-entry config: type `<http://ex/T>` with a single reverse edge
to `<http://ex/E>`. -/
def cfgRevOne : List (String × Json) :=
  [("<http://ex/T>", Json.obj [("reverse", Json.arr [Json.str "<http://ex/E>"])])]

/-- A binding row whose variable `s` is uri-typed but carries no
`value` member: the parser accepts it, the snippet builder's `unwrap`
panics on it. -/
def uriNoValueBinding : Json :=
  Json.obj [("s", Json.obj [("type", Json.str "uri")])]

/-- A result object containing only `uriNoValueBinding`. -/
def uriNoValueResp : Json := mkResults [uriNoValueBinding]

/-- Endpoint that always answers successfully with `uriNoValueResp`. -/
def epNoValue : String → HttpResponse := fun _ => HttpResponse.success uriNoValueResp

/-- Engine state whose frontier holds one IRI under type
`<http://ex/A>`. -/
def stSeedA : EngineState :=
  { frontier := [("<http://ex/A>", ["<http://ex/u>"])], plan := "", queries := [], err := none }

/-- Engine state whose frontier holds one IRI under type
`<http://ex/T>`. -/
def stSeedT : EngineState :=
  { frontier := [("<http://ex/T>", ["<http://ex/u>"])], plan := "", queries := [], err := none }

/-- The two-entry config `{A: {forward: [B]}, B: {forward: []}}` of the
spec's testable property 4. -/
def cfgAB : List (String × Json) :=
  [("<http://ex/A>", Json.obj [("forward", Json.arr [Json.str "<http://ex/B>"])]),
   ("<http://ex/B>", Json.obj [("forward", Json.arr [])])]

/-- The reverse query on seed `<http://ex/a>`. -/
def qRevA : String := create_reverse_parametrized_query "<http://ex/a>"

/-- The reverse query on seed `<http://ex/b>`. -/
def qRevB : String := create_reverse_parametrized_query "<http://ex/b>"

/-- Endpoint whose responses form a two-cycle: querying the reverse
neighbours of `a` discovers `b` and vice versa; every round's result is
non-empty. -/
def cyclicEndpoint : String → HttpResponse := fun q =>
  if q = qRevA then HttpResponse.success (mkRes "s" "http://ex/b")
  else if q = qRevB then HttpResponse.success (mkRes "s" "http://ex/a")
  else HttpResponse.failure

/-- A result object binding only the variable `o`, as the forward query
of the unconfigured BFS requests. -/
def respOnlyO : Json := mkResults [mkBinding "o" "http://ex/o1"]

/-- Endpoint that always answers successfully with `respOnlyO`. -/
def epOnlyO : String → HttpResponse := fun _ => HttpResponse.success respOnlyO

/-- Endpoint that always answers with one backward match
`<http://ex/m1>` on variable `s`. -/
def epM : String → HttpResponse := fun _ => HttpResponse.success (mkRes "s" "http://ex/m1")

/-- The delete snippet over the single IRI `<http://ex/m1>`. -/
def snipM : String := deleteHeader ++ "    <http://ex/m1>\n" ++ "  \x7d\n" ++ deleteFooter

/-- The seed state of `build_deletion_path` for seed IRI
`<http://ex/iri1>` under type `<http://ex/A>`. -/
def stSeedIri1 : EngineState :=
  { frontier := [("<http://ex/A>", ["<http://ex/iri1>"])], plan := "", queries := [], err := none }

/-- A response JSON binds only `varName` when every row of its bindings
array (when that array exists) is an object all of whose keys are
`varName`. -/
def bindsOnly (varName : String) (j : Json) : Prop :=
  ∀ r, j.getKey "results" = some r →
    ∀ bnd, r.getKey "bindings" = some bnd →
      ∀ a, bnd.asArr = some a →
        ∀ b ∈ a, ∃ fields, b = Json.obj fields ∧ ∀ kv ∈ fields, kv.1 = varName

/-! Helper lemmas. -/

/-- Inserting a frontier entry makes it the one found by lookup
(overwrite semantics of `HashMap::insert`). -/
theorem mapLookup_mapInsert_self (key : String) (v : List String) :
    ∀ m : List (String × List String), mapLookup (mapInsert key v m) key = some v := by
  intro m
  induction m with
  | nil => simp [mapInsert, mapLookup]
  | cons kv rest ih =>
    obtain ⟨k, w⟩ := kv
    by_cases h : k = key
    · simp [mapInsert, mapLookup, h]
    · simp [mapInsert, mapLookup, h, ih]

/-- An edge whose source type is absent from the frontier is a complete
no-op: no query, no state change. -/
theorem process_edge_skip (endpoint : String → HttpResponse) (dir : Dir) (key : String)
    (item : Json) (st : EngineState) (h : mapLookup st.frontier key = none) :
    process_edge endpoint dir key item st = st := by
  unfold process_edge
  cases herr : st.err with
  | some e => rfl
  | none => rw [h]

/-- A whole edge list over an absent source type is a no-op. -/
theorem process_edges_skip (endpoint : String → HttpResponse) (dir : Dir) (key : String)
    (items : List Json) (st : EngineState) (h : mapLookup st.frontier key = none) :
    process_edges endpoint dir key items st = st := by
  induction items with
  | nil => rfl
  | cons item rest ih =>
    unfold process_edges at ih ⊢
    rw [List.foldl_cons, process_edge_skip endpoint dir key item st h]
    exact ih

/-- A direction part over an absent source type is a no-op. -/
theorem process_edge_array_skip (endpoint : String → HttpResponse) (dir : Dir) (key : String)
    (edgeField : Option Json) (st : EngineState) (h : mapLookup st.frontier key = none) :
    process_edge_array endpoint dir key edgeField st = st := by
  unfold process_edge_array
  cases edgeField with
  | none => rfl
  | some field =>
    show (match field.asArr with
          | some arr => process_edges endpoint dir key arr st
          | none => st) = st
    cases hfa : field.asArr with
    | none => rfl
    | some arr => exact process_edges_skip endpoint dir key arr st h

/-- A config entry whose type key is absent from the frontier is
processed without issuing any query and without changing the state. -/
theorem process_entry_skip (endpoint : String → HttpResponse) (key : String) (value : Json)
    (st : EngineState) (h : mapLookup st.frontier key = none) :
    process_entry endpoint key value st = st := by
  unfold process_entry
  cases hobj : Json.asObj value with
  | none => rfl
  | some innerObj =>
    show process_edge_array endpoint Dir.forward key (lookupField innerObj "forward")
        (process_edge_array endpoint Dir.reverse key (lookupField innerObj "reverse") st) = st
    rw [process_edge_array_skip endpoint Dir.reverse key (lookupField innerObj "reverse") st h,
      process_edge_array_skip endpoint Dir.forward key (lookupField innerObj "forward") st h]

/-- An executed edge appends exactly its one query string to the trace,
whatever the endpoint answers. -/
theorem process_edge_queries (endpoint : String → HttpResponse) (dir : Dir) (key : String)
    (item : Json) (st : EngineState) (uris : List String) (t : String)
    (herr : st.err = none) (hkey : mapLookup st.frontier key = some uris)
    (hitem : item.asStr = some t) :
    (process_edge endpoint dir key item st).queries = st.queries ++ [edgeQuery dir uris t] := by
  unfold process_edge
  rw [herr, hkey, hitem]
  cases hf : fetch_sparql_results (endpoint (edgeQuery dir uris t)) with
  | error e => simp [hf]
  | ok r =>
    simp only [hf]
    by_cases hie : (extractIRIs (parse_json_uris r (dirVar dir)) (dirVar dir)).isEmpty
    · simp [hie]
    · simp only [hie]
      cases hb : build_delete_snippet (parse_json_uris r (dirVar dir)) (dirVar dir) with
      | none => simp [hb]
      | some snip => simp [hb]

/-- The `VALUES` block is the concatenation, in input order, of one
angle-bracket-wrapped line per binding, given the extracted string
values. -/
theorem snippetValues_eq (target : String) :
    ∀ (results : List Json) (vals : List String),
      results.map (fun b => ((b.idx target).idx "value").asStr) = vals.map some →
      snippetValues results target =
        some ((vals.map (fun v => "    <" ++ v ++ ">\n")).foldr (· ++ ·) "") := by
  intro results
  induction results with
  | nil =>
    intro vals hv
    cases vals with
    | nil => rfl
    | cons v vs => simp at hv
  | cons b rest ih =>
    intro vals hv
    cases vals with
    | nil => simp at hv
    | cons v vs =>
      simp only [List.map_cons, List.cons.injEq] at hv
      obtain ⟨h1, h2⟩ := hv
      unfold snippetValues
      rw [h1, ih vs h2]
      simp

/-- The `VALUES` block builds successfully when every binding's value
extracts as a string. -/
theorem snippetValues_isSome (target : String) :
    ∀ results : List Json,
      (∀ b ∈ results, (((b.idx target).idx "value").asStr).isSome = true) →
      (snippetValues results target).isSome = true := by
  intro results
  induction results with
  | nil => intro _; rfl
  | cons b rest ih =>
    intro h
    have hb := h b (List.mem_cons_self b rest)
    obtain ⟨v, hv⟩ := Option.isSome_iff_exists.mp hb
    unfold snippetValues
    rw [hv]
    obtain ⟨r, hr⟩ :=
      Option.isSome_iff_exists.mp (ih (fun x hx => h x (List.mem_cons_of_mem b hx)))
    rw [hr]
    rfl

/-- Field lists whose keys all equal one name have no entry for a
different name. -/
theorem lookupField_none_of_keys (key varName : String) (hne : varName ≠ key) :
    ∀ fields : List (String × Json), (∀ kv ∈ fields, kv.1 = varName) →
      lookupField fields key = none := by
  intro fields
  induction fields with
  | nil => intro _; rfl
  | cons kv rest ih =>
    intro h
    have h1 : kv.1 = varName := h kv (List.mem_cons_self kv rest)
    obtain ⟨k, v⟩ := kv
    unfold lookupField
    rw [if_neg (by simp only at h1; rw [h1]; exact hne)]
    exact ih (fun x hx => h x (List.mem_cons_of_mem _ hx))

/-- A response that binds only `o` parses to no bindings on variable
`s`. -/
theorem parse_nil_of_bindsOnly (j : Json) (h : bindsOnly "o" j) :
    parse_json_uris j "s" = [] := by
  unfold parse_json_uris
  cases hr : j.getKey "results" with
  | none => rfl
  | some r =>
    cases hb : r.getKey "bindings" with
    | none => simp [hb]
    | some bnd =>
      cases ha : bnd.asArr with
      | none => simp [hb, ha]
      | some a =>
        simp only [hb, ha]
        rw [List.filter_eq_nil_iff]
        intro binding hmem
        obtain ⟨fields, rfl, hkeys⟩ := h r hr bnd hb a ha binding hmem
        have hnone : lookupField fields "s" = none :=
          lookupField_none_of_keys "s" "o" (by decide) fields hkeys
        simp [Json.idx, Json.getKey, hnone, Json.eqStr]

/-- The forward BFS loop returns the accumulated string as soon as a
round's results are empty, for any remaining fuel. -/
theorem forward_loop_nil (endpoint : String → HttpResponse) (fuel : Nat) (s : String) :
    forward_loop endpoint fuel s [] = some (Except.ok s) := by
  cases fuel <;> rfl

/-- Against the cyclic endpoint the reverse BFS loop exhausts any amount
of fuel: each round's parsed results alternate between the `a` binding
and the `b` binding and are never empty. -/
theorem cyclic_loop_none :
    ∀ (fuel : Nat) (s : String),
      reverse_loop cyclicEndpoint fuel s [mkBinding "s" "http://ex/a"] = none ∧
      reverse_loop cyclicEndpoint fuel s [mkBinding "s" "http://ex/b"] = none := by
  intro fuel
  induction fuel with
  | zero => intro s; exact ⟨rfl, rfl⟩
  | succ n ih =>
    intro s
    refine ⟨?_, ?_⟩
    · exact (show reverse_loop cyclicEndpoint (n + 1) s [mkBinding "s" "http://ex/a"] =
          reverse_loop cyclicEndpoint n
            (s ++ (deleteHeader ++ "    <http://ex/a>\n" ++ "  \x7d\n" ++ deleteFooter) ++ "\n;\n\n")
            [mkBinding "s" "http://ex/b"] from rfl).trans ((ih _).2)
    · exact (show reverse_loop cyclicEndpoint (n + 1) s [mkBinding "s" "http://ex/b"] =
          reverse_loop cyclicEndpoint n
            (s ++ (deleteHeader ++ "    <http://ex/b>\n" ++ "  \x7d\n" ++ deleteFooter) ++ "\n;\n\n")
            [mkBinding "s" "http://ex/a"] from rfl).trans ((ih _).1)

/-- The fixed response `respOnlyO` binds only the variable `o`. -/
theorem respOnlyO_bindsOnly : bindsOnly "o" respOnlyO := by
  intro r hr bnd hbnd a ha b hb
  have hr' : Json.obj [("bindings", Json.arr [mkBinding "o" "http://ex/o1"])] = r :=
    Option.some.inj hr
  subst hr'
  have hbnd' : Json.arr [mkBinding "o" "http://ex/o1"] = bnd := Option.some.inj hbnd
  subst hbnd'
  have ha' : [mkBinding "o" "http://ex/o1"] = a := Option.some.inj ha
  subst ha'
  rw [List.mem_singleton] at hb
  subst hb
  exact ⟨[("o", Json.obj [("type", Json.str "uri"), ("value", Json.str "http://ex/o1")])],
    rfl, by intro kv hkv; rw [List.mem_singleton] at hkv; subst hkv; rfl⟩

/-! Claim theorems. -/

/-- C3: `parse_json_uris` returns the empty list when the JSON lacks a
`results` member, lacks `results.bindings`, or `bindings` is not an
array, without raising an error; otherwise it returns exactly those
elements of the bindings array whose entry for the named variable has
`type` equal to `"uri"`, preserving each full binding object unchanged
and in array order. -/
theorem parse_json_uris_spec (value : Json) (target : String) :
    (value.getKey "results" = none → parse_json_uris value target = []) ∧
    (∀ r, value.getKey "results" = some r → r.getKey "bindings" = none →
        parse_json_uris value target = []) ∧
    (∀ r bnd, value.getKey "results" = some r → r.getKey "bindings" = some bnd →
        bnd.asArr = none → parse_json_uris value target = []) ∧
    (∀ r bnd a, value.getKey "results" = some r → r.getKey "bindings" = some bnd →
        bnd.asArr = some a →
        parse_json_uris value target =
          a.filter (fun binding => ((binding.idx target).idx "type").eqStr "uri")) := by
  refine ⟨?_, ?_, ?_, ?_⟩
  · intro h
    unfold parse_json_uris
    rw [h]
  · intro r h1 h2
    unfold parse_json_uris
    rw [h1]
    simp [h2]
  · intro r bnd h1 h2 h3
    unfold parse_json_uris
    rw [h1]
    simp [h2, h3]
  · intro r bnd a h1 h2 h3
    unfold parse_json_uris
    rw [h1]
    simp [h2, h3]

/-- Witness for C3: the filtering branch evaluated on a concrete
one-binding result. -/
theorem parse_json_uris_spec_witness :
    parse_json_uris (mkRes "s" "http://ex/a") "s" = [mkBinding "s" "http://ex/a"] :=
  ((parse_json_uris_spec (mkRes "s" "http://ex/a") "s").2.2.2
      (Json.obj [("bindings", Json.arr [mkBinding "s" "http://ex/a"])])
      (Json.arr [mkBinding "s" "http://ex/a"])
      [mkBinding "s" "http://ex/a"] rfl rfl rfl).trans rfl

/-- C2: for every non-empty binding list whose values extract as the
strings `vals`, the delete snippet is the fixed header with the
`VALUES ?s` block, then one line per binding in input order, each
value wrapped in angle brackets, then the closing `GRAPH` pattern; the
right-hand side does not depend on the variable name, so the
discovered IRIs are bound to `?s` whether the source variable was
`s` or `o`. -/
theorem build_delete_snippet_form (results : List Json) (target : String) (vals : List String)
    (hne : results ≠ [])
    (hv : results.map (fun b => ((b.idx target).idx "value").asStr) = vals.map some) :
    build_delete_snippet results target =
      some (deleteHeader ++
        (vals.map (fun v => "    <" ++ v ++ ">\n")).foldr (· ++ ·) "" ++
        "  \x7d\n" ++ deleteFooter) := by
  unfold build_delete_snippet
  rw [snippetValues_eq target results vals hv]
  rfl

/-- Witness for C2 at a one-binding list. -/
theorem build_delete_snippet_form_witness :
    build_delete_snippet [mkBinding "s" "http://ex/a"] "s" =
      some (deleteHeader ++
        (["http://ex/a"].map (fun v => "    <" ++ v ++ ">\n")).foldr (· ++ ·) "" ++
        "  \x7d\n" ++ deleteFooter) :=
  build_delete_snippet_form [mkBinding "s" "http://ex/a"] "s" ["http://ex/a"]
    (by simp) rfl

/-- C8: the snippet builder is deterministic.  In the embedding
`build_delete_snippet` is a pure function of its two arguments — the
Rust function reads no state other than them — so building twice from
the same inputs is byte-identical. -/
theorem build_delete_snippet_deterministic :
    ∀ (results : List Json) (target : String),
      build_delete_snippet results target = build_delete_snippet results target :=
  fun _ _ => rfl

/-- C9: the snippet builder is total exactly under the precondition
that every binding's `[target]["value"]` is a JSON string: the parser
accepts `uriNoValueBinding` (uri-typed, but with no `value` member),
on which the builder's `unwrap` panics (`none`); and whenever every
binding's value extracts as a string the builder succeeds. -/
theorem snippet_totality_boundary :
    parse_json_uris uriNoValueResp "s" = [uriNoValueBinding] ∧
    build_delete_snippet [uriNoValueBinding] "s" = none ∧
    (∀ (results : List Json) (target : String),
        (∀ b ∈ results, (((b.idx target).idx "value").asStr).isSome = true) →
        (build_delete_snippet results target).isSome = true) := by
  refine ⟨rfl, rfl, ?_⟩
  intro results target h
  obtain ⟨v, hv⟩ := Option.isSome_iff_exists.mp (snippetValues_isSome target results h)
  unfold build_delete_snippet
  rw [hv]
  rfl

/-- Witness for C9's totality conjunct at a concrete well-formed
binding list. -/
theorem snippet_totality_boundary_witness :
    (build_delete_snippet [mkBinding "s" "http://ex/a"] "s").isSome = true :=
  snippet_totality_boundary.2.2 [mkBinding "s" "http://ex/a"] "s"
    (by intro b hb; rw [List.mem_singleton] at hb; subst hb; rfl)

/-- C1 (counterexample): a transport failure does not degrade to an
empty result — it aborts the whole run.  On an endpoint whose sends
always fail at the transport layer, `build_deletion_path` with a
one-edge config stops with a propagated error instead of continuing to
an (empty) plan, and `fetch_sparql_results` itself returns an error
rather than `Ok(Null)`. -/
theorem transport_failure_aborts_run :
    build_deletion_path_result epTransport cfgRevOne "<http://ex/u>" "<http://ex/T>" =
      Except.error RunError.fetchFailed ∧
    (build_deletion_path epTransport cfgRevOne "<http://ex/u>" "<http://ex/T>").err =
      some RunError.fetchFailed ∧
    fetch_sparql_results HttpResponse.transportError ≠ Except.ok Json.null := by
  refine ⟨rfl, rfl, ?_⟩
  intro h
  cases h

/-- C1 (amended): a non-success HTTP status degrades to `Ok(Null)` and
the engine treats the target type as empty and continues — the state is
unchanged except for the single recorded query (no retry, no abort);
a transport failure instead is an error and aborts the run. -/
theorem fetch_degrade_vs_abort :
    fetch_sparql_results HttpResponse.failure = Except.ok Json.null ∧
    fetch_sparql_results HttpResponse.transportError = Except.error () ∧
    (∀ (endpoint : String → HttpResponse) (dir : Dir) (key : String) (item : Json)
        (st : EngineState) (uris : List String) (t : String),
        st.err = none → mapLookup st.frontier key = some uris → item.asStr = some t →
        endpoint (edgeQuery dir uris t) = HttpResponse.failure →
        process_edge endpoint dir key item st =
          { st with queries := st.queries ++ [edgeQuery dir uris t] }) ∧
    (∀ (endpoint : String → HttpResponse) (dir : Dir) (key : String) (item : Json)
        (st : EngineState) (uris : List String) (t : String),
        st.err = none → mapLookup st.frontier key = some uris → item.asStr = some t →
        endpoint (edgeQuery dir uris t) = HttpResponse.transportError →
        process_edge endpoint dir key item st =
          { st with queries := st.queries ++ [edgeQuery dir uris t],
                    err := some RunError.fetchFailed }) := by
  refine ⟨rfl, rfl, ?_, ?_⟩
  · intro endpoint dir key item st uris t herr hkey hitem hfail
    unfold process_edge
    rw [herr, hkey, hitem]
    have hf : fetch_sparql_results (endpoint (edgeQuery dir uris t)) = Except.ok Json.null := by
      rw [hfail]
      rfl
    simp only [hf]
    rfl
  · intro endpoint dir key item st uris t herr hkey hitem hfail
    unfold process_edge
    rw [herr, hkey, hitem]
    have hf : fetch_sparql_results (endpoint (edgeQuery dir uris t)) = Except.error () := by
      rw [hfail]
      rfl
    simp only [hf]

/-- Witness for C1's amended theorem: both behaviours at a concrete
state and endpoint. -/
theorem fetch_degrade_vs_abort_witness :
    process_edge epFail Dir.reverse "<http://ex/T>" (Json.str "<http://ex/E>") stSeedT =
      { stSeedT with
          queries := stSeedT.queries ++ [edgeQuery Dir.reverse ["<http://ex/u>"] "<http://ex/E>"] } ∧
    process_edge epTransport Dir.reverse "<http://ex/T>" (Json.str "<http://ex/E>") stSeedT =
      { stSeedT with
          queries := stSeedT.queries ++ [edgeQuery Dir.reverse ["<http://ex/u>"] "<http://ex/E>"],
          err := some RunError.fetchFailed } :=
  ⟨fetch_degrade_vs_abort.2.2.1 epFail Dir.reverse "<http://ex/T>" (Json.str "<http://ex/E>")
      stSeedT ["<http://ex/u>"] "<http://ex/E>" rfl rfl rfl rfl,
    fetch_degrade_vs_abort.2.2.2 epTransport Dir.reverse "<http://ex/T>" (Json.str "<http://ex/E>")
      stSeedT ["<http://ex/u>"] "<http://ex/E>" rfl rfl rfl rfl⟩

/-- C4: a type-edge query is only issued when the edge's source type is
a key of the frontier at that moment — an entry whose type key is
absent is processed with no query and no state change at all, and an
edge that changed the query trace had its source type present. -/
theorem no_query_when_type_absent :
    (∀ (endpoint : String → HttpResponse) (key : String) (value : Json) (st : EngineState),
        mapLookup st.frontier key = none →
        process_entry endpoint key value st = st) ∧
    (∀ (endpoint : String → HttpResponse) (dir : Dir) (key : String) (item : Json)
        (st : EngineState),
        (process_edge endpoint dir key item st).queries ≠ st.queries →
        (mapLookup st.frontier key).isSome = true) := by
  constructor
  · intro endpoint key value st h
    exact process_entry_skip endpoint key value st h
  · intro endpoint dir key item st hq
    cases hmk : mapLookup st.frontier key with
    | some uris => rfl
    | none =>
      exact absurd (congrArg EngineState.queries
        (process_edge_skip endpoint dir key item st hmk)) hq

/-- Witness for C4: an entry whose type is absent from a concrete
frontier is a no-op, and a concrete edge that recorded a query had its
source type present. -/
theorem no_query_when_type_absent_witness :
    process_entry epFail "<http://ex/A>"
        (Json.obj [("reverse", Json.arr [Json.str "<http://ex/E>"])]) stSeedT = stSeedT ∧
    (mapLookup stSeedT.frontier "<http://ex/T>").isSome = true := by
  constructor
  · exact no_query_when_type_absent.1 epFail "<http://ex/A>"
      (Json.obj [("reverse", Json.arr [Json.str "<http://ex/E>"])]) stSeedT rfl
  · refine no_query_when_type_absent.2 epFail Dir.reverse "<http://ex/T>"
      (Json.str "<http://ex/E>") stSeedT ?_
    intro h
    cases h

/-- C5 (counterexample): a non-empty parsed result does not guarantee a
frontier update or an appended snippet.  A uri-typed binding with no
`value` member parses to a non-empty result list, yet the extracted IRI
list is empty, so the edge leaves the frontier and the plan untouched
and the target type is never added. -/
theorem nonempty_parse_without_update :
    parse_json_uris uriNoValueResp "s" ≠ [] ∧
    (process_edge epNoValue Dir.reverse "<http://ex/A>" (Json.str "<http://ex/B>")
        stSeedA).frontier = stSeedA.frontier ∧
    (process_edge epNoValue Dir.reverse "<http://ex/A>" (Json.str "<http://ex/B>")
        stSeedA).plan = stSeedA.plan ∧
    mapLookup (process_edge epNoValue Dir.reverse "<http://ex/A>" (Json.str "<http://ex/B>")
        stSeedA).frontier "<http://ex/B>" = none := by
  refine ⟨?_, rfl, rfl, rfl⟩
  intro h
  exact List.cons_ne_nil uriNoValueBinding []
    ((show [uriNoValueBinding] = parse_json_uris uriNoValueResp "s" from rfl).trans h)

/-- C5 (amended): for every executed edge, when the list of IRIs
extracted from the parsed result (the uri-typed bindings whose `value`
is a string) is empty the frontier and plan are unchanged and only the
query is recorded; when it is non-empty the frontier entry for the
edge's target type is overwritten — replaced, not merged — with exactly
the extracted IRIs and the one snippet built from the parsed bindings
is appended to the plan. -/
theorem process_edge_update_or_skip (endpoint : String → HttpResponse) (dir : Dir)
    (key : String) (item : Json) (st : EngineState) (uris : List String) (t : String) (r : Json)
    (herr : st.err = none) (hkey : mapLookup st.frontier key = some uris)
    (hitem : item.asStr = some t)
    (hfetch : fetch_sparql_results (endpoint (edgeQuery dir uris t)) = Except.ok r) :
    (extractIRIs (parse_json_uris r (dirVar dir)) (dirVar dir) = [] →
        process_edge endpoint dir key item st =
          { st with queries := st.queries ++ [edgeQuery dir uris t] }) ∧
    (∀ snip, extractIRIs (parse_json_uris r (dirVar dir)) (dirVar dir) ≠ [] →
        build_delete_snippet (parse_json_uris r (dirVar dir)) (dirVar dir) = some snip →
        process_edge endpoint dir key item st =
          { st with
              frontier := mapInsert t
                (extractIRIs (parse_json_uris r (dirVar dir)) (dirVar dir)) st.frontier,
              plan := st.plan ++ snip ++ "\n;\n\n",
              queries := st.queries ++ [edgeQuery dir uris t] } ∧
        mapLookup (mapInsert t
            (extractIRIs (parse_json_uris r (dirVar dir)) (dirVar dir)) st.frontier) t =
          some (extractIRIs (parse_json_uris r (dirVar dir)) (dirVar dir))) := by
  constructor
  · intro hnil
    unfold process_edge
    rw [herr, hkey, hitem]
    simp only [hfetch]
    simp [hnil]
  · intro snip hne hsnip
    refine ⟨?_, mapLookup_mapInsert_self t _ st.frontier⟩
    unfold process_edge
    rw [herr, hkey, hitem]
    simp only [hfetch]
    rw [if_neg (by simp [List.isEmpty_iff, hne])]
    simp [hsnip]

/-- Witness for C5's amended theorem: one backward match overwrites the
frontier entry of the target type and appends one snippet. -/
theorem process_edge_update_or_skip_witness :
    process_edge epM Dir.reverse "<http://ex/T>" (Json.str "<http://ex/M>") stSeedT =
      { frontier := [("<http://ex/T>", ["<http://ex/u>"]), ("<http://ex/M>", ["<http://ex/m1>"])],
        plan := "" ++ snipM ++ "\n;\n\n",
        queries := [edgeQuery Dir.reverse ["<http://ex/u>"] "<http://ex/M>"],
        err := none } ∧
    mapLookup (mapInsert "<http://ex/M>" ["<http://ex/m1>"] stSeedT.frontier) "<http://ex/M>" =
      some ["<http://ex/m1>"] := by
  have h := (process_edge_update_or_skip epM Dir.reverse "<http://ex/T>"
      (Json.str "<http://ex/M>") stSeedT ["<http://ex/u>"] "<http://ex/M>"
      (mkRes "s" "http://ex/m1") rfl rfl rfl rfl).2 snipM
    (by intro hc; cases hc) rfl
  exact ⟨h.1.trans rfl, h.2⟩

/-- C6: with config `{A: {forward: [B]}, B: {forward: []}}` and a
frontier seeded with one IRI under `A`, the engine issues exactly one
query over the whole run — the A-to-B forward query — and none while
processing entry B, whatever the endpoint answers. -/
theorem cfgAB_single_query (endpoint : String → HttpResponse) :
    (build_deletion_path endpoint cfgAB "<http://ex/iri1>" "<http://ex/A>").queries =
      [create_forward_parametrized_select_query_with_type "<http://ex/iri1>" "<http://ex/B>"] := by
  have hB : ∀ st : EngineState,
      process_entry endpoint "<http://ex/B>" (Json.obj [("forward", Json.arr [])]) st = st :=
    fun st => rfl
  have hA : build_deletion_path endpoint cfgAB "<http://ex/iri1>" "<http://ex/A>" =
      process_entry endpoint "<http://ex/B>" (Json.obj [("forward", Json.arr [])])
        (process_edge endpoint Dir.forward "<http://ex/A>" (Json.str "<http://ex/B>")
          stSeedIri1) := rfl
  rw [hA, hB]
  rw [process_edge_queries endpoint Dir.forward "<http://ex/A>" (Json.str "<http://ex/B>")
    stSeedIri1 ["<http://ex/iri1>"] "<http://ex/B>" rfl rfl rfl]
  rfl

/-- C7: the unconfigured reverse BFS keeps a flat frontier it replaces
each round and stops exactly when a round parses to no bindings; it
keeps no visited set, so on the concrete `cyclicEndpoint` — whose
responses form a cyclic chain of non-empty results — the loop consumes
any amount of fuel without terminating. -/
theorem reverse_bfs_termination_and_cycle :
    (∀ (endpoint : String → HttpResponse) (fuel : Nat) (s : String),
        reverse_loop endpoint fuel s [] = some (Except.ok s)) ∧
    (∀ fuel : Nat, build_reverse_path cyclicEndpoint fuel "<http://ex/a>" = none) := by
  constructor
  · intro endpoint fuel s
    cases fuel <;> rfl
  · intro fuel
    exact (show build_reverse_path cyclicEndpoint fuel "<http://ex/a>" =
        reverse_loop cyclicEndpoint fuel "" [mkBinding "s" "http://ex/b"] from rfl).trans
      (cyclic_loop_none fuel "").2

/-- C10: `build_forward_path` parses the variable `s` although its
query selects only `?o`; on every endpoint whose (successful) responses
bind only the variable `o`, it emits no delete snippet and returns the
empty string. -/
theorem forward_path_empty_when_only_o (endpoint : String → HttpResponse) (fuel : Nat)
    (uri : String)
    (h : ∀ q, ∃ j, endpoint q = HttpResponse.success j ∧ bindsOnly "o" j) :
    build_forward_path endpoint fuel uri = some (Except.ok "") := by
  obtain ⟨j, hj, hb⟩ := h (create_forward_parametrized_query uri)
  unfold build_forward_path
  rw [hj]
  show forward_loop endpoint fuel "" (parse_json_uris j "s") = some (Except.ok "")
  rw [parse_nil_of_bindsOnly j hb]
  exact forward_loop_nil endpoint fuel ""

/-- Witness for C10 on a concrete endpoint whose every response binds
only `o`. -/
theorem forward_path_empty_when_only_o_witness :
    build_forward_path epOnlyO 3 "<http://ex/u>" = some (Except.ok "") :=
  forward_path_empty_when_only_o epOnlyO 3 "<http://ex/u>"
    (fun _ => ⟨respOnlyO, rfl, respOnlyO_bindsOnly⟩)

end DeleteOrg
